import Mathlib

/-!
Verification development for the PythonCDT repository: a shallow embedding of
the `cdt_bindings.cpp` binding layer together with a model of the constrained
Delaunay triangulation engine it exposes.  The engine itself (CDT library) is
not part of the repository's sources, so its operations are modelled from the
specification; the binding-layer buffer validation, the `Edge` buffer protocol
and the dispatch structure are embedded directly from `src/cdt_bindings.cpp`.

Coordinates are modelled with exact integer arithmetic, matching the spec's
requirement that the geometric predicates be exact for the coordinate type.
-/

namespace PythonCDT

/-- A point of the plane, with exact coordinates. -/
abbrev Pt := ℤ × ℤ

/-- Orientation determinant of the triplet `(p, q, r)`: positive when `r` lies
to the left of the directed line `p → q`, negative to the right, zero when the
three points are collinear.  Modelled from the spec: `orientation(a, b, c)`
returns left/right/collinear via an exact predicate. -/
def orient2d (p q r : Pt) : ℤ :=
  (q.1 - p.1) * (r.2 - p.2) - (q.2 - p.2) * (r.1 - p.1)

/-- In-circle determinant for `d` against the circle through `a`, `b`, `c`
(the classical 3×3 determinant of lifted coordinates relative to `d`). -/
def inCircleDet (a b c d : Pt) : ℤ :=
  let ax := a.1 - d.1; let ay := a.2 - d.2
  let bx := b.1 - d.1; let bz := b.2 - d.2
  let cx := c.1 - d.1; let cy := c.2 - d.2
  (ax * ax + ay * ay) * (bx * cy - bz * cx)
    - (bx * bx + bz * bz) * (ax * cy - ay * cx)
    + (cx * cx + cy * cy) * (ax * bz - ay * bx)

/-- Modelled from the spec: `in-circle(a, b, c, d)` returns whether `d` lies
strictly inside the circle through `a`, `b`, `c`.  Multiplying the lifted
determinant by the orientation sign makes the test independent of the winding
of the triangle; for collinear `a b c` there is no circle and the test is
`false`. -/
def strictlyInCircumcircle (a b c d : Pt) : Bool :=
  0 < orient2d a b c * inCircleDet a b c d

/-- A triangle of the mesh: three vertex indices.  Modelled from the spec's
data model (neighbor links are recovered from shared edges in this model). -/
structure Tri where
  a : ℕ
  b : ℕ
  c : ℕ
deriving DecidableEq, Repr

/-- The vertex indices of a triangle, as a list. -/
def triVerts (t : Tri) : List ℕ := [t.a, t.b, t.c]

/-- Canonical form of an undirected edge between vertex indices: the smaller
index first, so equality is order-independent (spec: Edge is an unordered,
canonicalized pair). -/
def canonEdge (x y : ℕ) : ℕ × ℕ := if x ≤ y then (x, y) else (y, x)

/-- The three canonical edges of a triangle. -/
def triEdges (t : Tri) : List (ℕ × ℕ) :=
  [canonEdge t.a t.b, canonEdge t.b t.c, canonEdge t.c t.a]

/-- Modelled from the spec: the Mesh Store — vertex and triangle arrays plus
the constrained-edge registry (fixed edges, overlap counts). -/
structure Mesh where
  vertices : List Pt
  triangles : List Tri
  fixedEdges : List (ℕ × ℕ)
  overlapCount : List ((ℕ × ℕ) × ℕ)
deriving DecidableEq, Repr

/-- Coordinate lookup for a vertex index (out-of-range indices default to the
origin; well-formed meshes never dereference such indices). -/
def vtx (m : Mesh) (i : ℕ) : Pt := m.vertices.getD i (0, 0)

/-- Whether a triangle has at least one constrained (fixed) edge. -/
def hasFixedEdge (m : Mesh) (t : Tri) : Bool :=
  (triEdges t).any (fun e => decide (e ∈ m.fixedEdges))

/-- The Delaunay legality of one triangle against the whole vertex set: no
other mesh vertex lies strictly inside its circumcircle. -/
def triLegalB (m : Mesh) (t : Tri) : Bool :=
  (List.range m.vertices.length).all fun v =>
    decide (v ∈ triVerts t) ||
      !strictlyInCircumcircle (vtx m t.a) (vtx m t.b) (vtx m t.c) (vtx m v)

/-- Global Delaunay legality of the mesh: every triangle without a constrained
edge has an empty circumcircle; triangles with a fixed edge are exempt
(spec invariant 5 and the Delaunay-legality testable property). -/
def delaunayLegalB (m : Mesh) : Bool :=
  m.triangles.all fun t => hasFixedEdge m t || triLegalB m t

/-- The vertex of `t` opposite to edge `e`, when `e` is an edge of `t`. -/
def oppositeVertex (t : Tri) (e : ℕ × ℕ) : Option ℕ :=
  if canonEdge t.a t.b = e then some t.c
  else if canonEdge t.b t.c = e then some t.a
  else if canonEdge t.c t.a = e then some t.b
  else none

/-- Search one pair of triangles for a flippable illegal configuration:
a shared non-fixed edge whose two opposite vertices violate the in-circle
test.  Returns the two replacement triangles of the flip. -/
def flipCandidate (m : Mesh) (i j : ℕ) : Option (Tri × Tri) :=
  match m.triangles.get? i, m.triangles.get? j with
  | some ti, some tj =>
    (triEdges ti).findSome? fun e =>
      if decide (e ∈ m.fixedEdges) then none
      else
        match oppositeVertex ti e, oppositeVertex tj e with
        | some p, some q =>
          if p ≠ q ∧
              strictlyInCircumcircle (vtx m e.1) (vtx m e.2) (vtx m p)
                (vtx m q) = true then
            some (⟨e.1, p, q⟩, ⟨e.2, p, q⟩)
          else none
        | _, _ => none
  | _, _ => none

/-- Find some flippable illegal edge in the mesh, as the pair of triangle
indices together with the two triangles that replace them. -/
def findFlip (m : Mesh) : Option (ℕ × ℕ × Tri × Tri) :=
  (List.range m.triangles.length).findSome? fun i =>
    (List.range m.triangles.length).findSome? fun j =>
      if i < j then (flipCandidate m i j).map (fun p => (i, j, p.1, p.2))
      else none

/-- Apply a flip: replace the triangles at positions `i` and `j`. -/
def applyFlip (m : Mesh) (i j : ℕ) (t1 t2 : Tri) : Mesh :=
  { m with triangles := (m.triangles.set i t1).set j t2 }

/-- Modelled from the spec: the Lawson-style flip loop that restores the
Delaunay property after an insertion.  The loop returns only when the mesh is
Delaunay-legal; the fuel bounds the number of flips (the spec argues
termination via a potential function, which the model makes explicit as
fuel — exhaustion or a stuck configuration yields `none`, i.e. the call does
not return normally). -/
def fixDelaunay : ℕ → Mesh → Option Mesh
  | 0, m => if delaunayLegalB m then some m else none
  | n + 1, m =>
    if delaunayLegalB m then some m
    else
      match findFlip m with
      | some (i, j, t1, t2) => fixDelaunay n (applyFlip m i j t1 t2)
      | none => none

/-- Whether point `p` lies strictly inside the triangle `a b c` (all three
orientation tests strictly on the same side). -/
def strictlyInTri (p a b c : Pt) : Bool :=
  (0 < orient2d a b p && 0 < orient2d b c p && 0 < orient2d c a p) ||
  (orient2d a b p < 0 && orient2d b c p < 0 && orient2d c a p < 0)

/-- Locate the index of a triangle strictly containing `p`. -/
def locateTri (m : Mesh) (p : Pt) : Option ℕ :=
  (List.range m.triangles.length).find? fun i =>
    match m.triangles.get? i with
    | some t => strictlyInTri p (vtx m t.a) (vtx m t.b) (vtx m t.c)
    | none => false

/-- Modelled from the spec: insert one point by locating its containing
triangle and splitting that triangle into three (the cavity seed); the point
is appended with the next dense index.  Points that cannot be located (outside
the super-triangle, or on a degenerate position for this model) fail. -/
def insertOnePoint (m : Mesh) (p : Pt) : Option Mesh :=
  match locateTri m p with
  | none => none
  | some i =>
    match m.triangles.get? i with
    | none => none
    | some t =>
      let n := m.vertices.length
      some
        { m with
          vertices := m.vertices ++ [p]
          triangles :=
            m.triangles.set i ⟨t.a, t.b, n⟩ ++ [⟨t.b, t.c, n⟩, ⟨t.c, t.a, n⟩] }

/-- Modelled from the spec: `insert_vertices` — each point is located,
inserted by splitting its containing triangle, and the Delaunay property is
restored by the flip loop before the call returns. -/
def insertVertices (fuel : ℕ) (m : Mesh) (pts : List Pt) : Option Mesh :=
  (pts.foldl
      (fun om p => om.bind fun m0 => (insertOnePoint m0 p).bind (fixDelaunay fuel))
      (some m)).bind
    (fixDelaunay fuel)

/-- Number of synthetic super-triangle vertices (they occupy indices 0..2;
user vertices start at index 3 while the super-triangle is present). -/
def nSuperVerts : ℕ := 3

/-- Modelled from the spec: the mesh is created with three synthetic
super-triangle vertices enclosing all future input. -/
def initMesh : Mesh :=
  { vertices := [(-9, -8), (23, -7), (-5, 29)]
    triangles := [⟨0, 1, 2⟩]
    fixedEdges := []
    overlapCount := [] }

/-- Look up the overlap count recorded for an edge (0 when absent). -/
def lookupCount (l : List ((ℕ × ℕ) × ℕ)) (e : ℕ × ℕ) : ℕ :=
  match l.find? (fun p => p.1 = e) with
  | some p => p.2
  | none => 0

/-- Increment the overlap count of an edge, inserting it at count 1 when it
had no entry yet. -/
def bumpCount : List ((ℕ × ℕ) × ℕ) → (ℕ × ℕ) → List ((ℕ × ℕ) × ℕ)
  | [], e => [(e, 1)]
  | p :: rest, e => if p.1 = e then (p.1, p.2 + 1) :: rest else p :: bumpCount rest e

/-- Whether an edge is present as an edge of some triangle of the mesh. -/
def edgeInMesh (m : Mesh) (e : ℕ × ℕ) : Bool :=
  m.triangles.any fun t => decide (e ∈ triEdges t)

/-- Modelled from the spec: mark an edge as constrained.  A first insertion
registers the edge with overlap count 1; re-inserting an already fixed edge
only increments its overlap count (spec: overlap count is the number of
original input edges that collapsed onto the fixed edge, hence at least 1). -/
def fixEdge (m : Mesh) (e : ℕ × ℕ) : Mesh :=
  if e ∈ m.fixedEdges then
    { m with overlapCount := bumpCount m.overlapCount e }
  else
    { m with
      fixedEdges := m.fixedEdges ++ [e]
      overlapCount := bumpCount m.overlapCount e }

/-- Find the flip that exposes the requested edge `e`: two triangles sharing a
non-fixed edge whose opposite vertices are exactly the endpoints of `e`. -/
def findEdgeFlip (m : Mesh) (e : ℕ × ℕ) : Option (ℕ × ℕ × Tri × Tri) :=
  (List.range m.triangles.length).findSome? fun i =>
    (List.range m.triangles.length).findSome? fun j =>
      if i < j then
        match m.triangles.get? i, m.triangles.get? j with
        | some ti, some tj =>
          (triEdges ti).findSome? fun s =>
            if decide (s ∈ m.fixedEdges) then none
            else
              match oppositeVertex ti s, oppositeVertex tj s with
              | some p, some q =>
                if canonEdge p q = e then
                  some (i, j, (⟨s.1, p, q⟩ : Tri), (⟨s.2, p, q⟩ : Tri))
                else none
              | _, _ => none
        | _, _ => none
      else none

/-- Modelled from the spec: insert a single constraint edge (internal vertex
indices).  When the edge is already an edge of the mesh it is only marked
fixed (overlap bookkeeping); otherwise the crossing diagonal is flipped to
expose it and it is then marked fixed. -/
def insertOneEdge (m : Mesh) (e : ℕ × ℕ) : Option Mesh :=
  if edgeInMesh m e then some (fixEdge m e)
  else
    match findEdgeFlip m e with
    | some (i, j, t1, t2) => some (fixEdge (applyFlip m i j t1 t2) e)
    | none => none

/-- Modelled from the spec: `insert_edges` — user edge indices are shifted by
the three super-triangle vertices while the super-triangle is present; each
edge is forced into the mesh and marked constrained, and the Delaunay property
of the non-constrained part is restored before the call returns. -/
def insertEdges (fuel : ℕ) (m : Mesh) (es : List (ℕ × ℕ)) : Option Mesh :=
  (es.foldl
      (fun om e =>
        om.bind fun m0 =>
          insertOneEdge m0 (canonEdge (e.1 + nSuperVerts) (e.2 + nSuperVerts)))
      (some m)).bind
    (fixDelaunay fuel)

/-- Modelled from the spec: `conform_to_edges` shares the constraint-insertion
core with `insert_edges` (the two public operations share one core algorithm,
differing only in how crossings are resolved, which this model does not
exercise). -/
def conformToEdges (fuel : ℕ) (m : Mesh) (es : List (ℕ × ℕ)) : Option Mesh :=
  insertEdges fuel m es

/-- Modelled from the spec: `erase_super_triangle` — remove the three
synthetic vertices and every triangle touching them, and renumber the
surviving vertex references back to the user's dense zero-based indices. -/
def eraseSuperTriangle (m : Mesh) : Mesh :=
  { vertices := m.vertices.drop nSuperVerts
    triangles :=
      (m.triangles.filter fun t =>
          decide (nSuperVerts ≤ t.a ∧ nSuperVerts ≤ t.b ∧ nSuperVerts ≤ t.c)).map
        fun t => ⟨t.a - nSuperVerts, t.b - nSuperVerts, t.c - nSuperVerts⟩
    fixedEdges := m.fixedEdges.map fun e => (e.1 - nSuperVerts, e.2 - nSuperVerts)
    overlapCount :=
      m.overlapCount.map fun p => ((p.1.1 - nSuperVerts, p.1.2 - nSuperVerts), p.2) }

/-- The distinct edges of the mesh (each edge of each triangle, deduplicated). -/
def meshEdges (m : Mesh) : List (ℕ × ℕ) :=
  (m.triangles.foldr (fun t acc => triEdges t ++ acc) []).dedup

/-- Number of triangles of which `e` is an edge. -/
def countEdge (ts : List Tri) (e : ℕ × ℕ) : ℕ :=
  ts.countP fun t => decide (e ∈ triEdges t)

/-- Modelled from the spec: the tagged findings of the topology verifier, one
variant per mesh invariant (adjacency integrity, non-degeneracy, vertex
incidence, fixed-edge presence, local Delaunay legality). -/
inductive Violation where
  | edgeOveruse (e : ℕ × ℕ)
  | degenerateTri (t : Tri)
  | vertexOrphan (v : ℕ)
  | fixedEdgeMissing (e : ℕ × ℕ)
  | delaunayBreach (e : ℕ × ℕ)
deriving DecidableEq, Repr

/-- Whether a triangle is degenerate: repeated or out-of-range vertex index,
or zero signed area. -/
def isDegenerateTri (m : Mesh) (t : Tri) : Bool :=
  decide (t.a = t.b ∨ t.b = t.c ∨ t.a = t.c ∨
    m.vertices.length ≤ t.a ∨ m.vertices.length ≤ t.b ∨ m.vertices.length ≤ t.c ∨
    orient2d (vtx m t.a) (vtx m t.b) (vtx m t.c) = 0)

/-- Adjacency-integrity findings: an edge belonging to more than two triangles
makes symmetric neighbor links impossible (spec invariant 1). -/
def checkOveruse (m : Mesh) : List Violation :=
  (meshEdges m).filterMap fun e =>
    if 2 < countEdge m.triangles e then some (.edgeOveruse e) else none

/-- Non-degeneracy findings (spec invariant 2). -/
def checkDegenerate (m : Mesh) : List Violation :=
  m.triangles.filterMap fun t =>
    if isDegenerateTri m t then some (.degenerateTri t) else none

/-- Vertex-incidence findings: every vertex must belong to some triangle
(spec invariant 3). -/
def checkOrphans (m : Mesh) : List Violation :=
  (List.range m.vertices.length).filterMap fun v =>
    if m.triangles.any (fun t => decide (v ∈ triVerts t)) then none
    else some (.vertexOrphan v)

/-- Fixed-edge presence findings: every registered constraint must be an edge
of some current triangle (spec invariant 4). -/
def checkFixedPresent (m : Mesh) : List Violation :=
  m.fixedEdges.filterMap fun e =>
    if edgeInMesh m e then none else some (.fixedEdgeMissing e)

/-- Local Delaunay finding for one ordered pair of triangles: a shared
non-fixed edge whose opposite vertices violate the in-circle test. -/
def localPairViolation (m : Mesh) (t1 t2 : Tri) : Option Violation :=
  (triEdges t1).findSome? fun e =>
    if decide (e ∈ triEdges t2) && !decide (e ∈ m.fixedEdges) then
      match oppositeVertex t1 e, oppositeVertex t2 e with
      | some p, some q =>
        if strictlyInCircumcircle (vtx m e.1) (vtx m e.2) (vtx m p) (vtx m q) then
          some (.delaunayBreach e)
        else none
      | _, _ => none
    else none

/-- Local Delaunay findings over all triangle pairs (spec invariant 5;
constrained edges are exempt). -/
def checkDelaunay (m : Mesh) : List Violation :=
  (List.product (List.range m.triangles.length)
      (List.range m.triangles.length)).filterMap
    fun ij =>
      if ij.1 < ij.2 then
        match m.triangles.get? ij.1, m.triangles.get? ij.2 with
        | some t1, some t2 => localPairViolation m t1 t2
        | _, _ => none
      else none

/-- Modelled from the spec: `verify_topology` — a pure read-only pass checking
invariants 1–5 against the current mesh and registry, returning the collection
of violations found (empty meaning valid) rather than halting on the first
failure. -/
def verifyTopology (m : Mesh) : List Violation :=
  checkOveruse m ++ checkDegenerate m ++ checkOrphans m ++
    checkFixedPresent m ++ checkDelaunay m

/-- The mesh invariants, stated at the propositional level: adjacency
integrity, non-degeneracy, vertex incidence, fixed-edge presence, and local
Delaunay legality of non-constrained shared edges. -/
def MeshValid (m : Mesh) : Prop :=
  (∀ e ∈ meshEdges m, countEdge m.triangles e ≤ 2) ∧
  (∀ t ∈ m.triangles, isDegenerateTri m t = false) ∧
  (∀ v, v < m.vertices.length → ∃ t ∈ m.triangles, v ∈ triVerts t) ∧
  (∀ e ∈ m.fixedEdges, edgeInMesh m e = true) ∧
  (∀ i j t1 t2, i < j → m.triangles.get? i = some t1 →
    m.triangles.get? j = some t2 →
    ∀ e ∈ triEdges t1, e ∈ triEdges t2 → e ∉ m.fixedEdges →
      ∀ p q, oppositeVertex t1 e = some p → oppositeVertex t2 e = some q →
        strictlyInCircumcircle (vtx m e.1) (vtx m e.2) (vtx m p) (vtx m q) = false)

/-- Modelled from the spec: a flood-fill seed for `erase_outer_triangles` —
a triangle reachable from outside, i.e. one with a boundary edge (an edge of
no other triangle) that is not a fixed edge (the fill never crosses a fixed
edge, so a fixed boundary edge does not let the outside in). -/
def isBoundarySeed (ts : List Tri) (fixed : List (ℕ × ℕ)) (t : Tri) : Bool :=
  decide (∃ e ∈ triEdges t, countEdge ts e = 1 ∧ e ∉ fixed)

/-- Whether two triangles are adjacent across a non-fixed edge (the flood fill
may traverse from one to the other). -/
def adjNonFixed (fixed : List (ℕ × ℕ)) (t t' : Tri) : Bool :=
  decide (∃ e ∈ triEdges t, e ∈ triEdges t' ∧ e ∉ fixed)

/-- One-sided approximations of the flood fill: `outerIter ts fixed k t` holds
when `t` is reached from the outside in at most `k` expansion rounds. -/
def outerIter (ts : List Tri) (fixed : List (ℕ × ℕ)) : ℕ → Tri → Bool
  | 0, _ => false
  | k + 1, t =>
    isBoundarySeed ts fixed t ||
      ts.any fun t' => outerIter ts fixed k t' && adjNonFixed fixed t' t

/-- The saturated flood fill: whether a triangle is exterior (reached from the
mesh boundary without crossing a fixed edge). -/
def isOuter (ts : List Tri) (fixed : List (ℕ × ℕ)) (t : Tri) : Bool :=
  outerIter ts fixed (ts.length + 1) t

/-- Modelled from the spec: `erase_outer_triangles` — flood-fill from the mesh
boundary, traversing adjacency but never crossing a fixed edge, and delete
every reached triangle (compacting the triangle array). -/
def eraseOuterTriangles (m : Mesh) : Mesh :=
  { m with triangles := m.triangles.filter fun t => !isOuter m.triangles m.fixedEdges t }

/-! ## The binding layer, embedded from `src/cdt_bindings.cpp`. -/

/-- The pybind11 buffer format descriptors relevant to the bindings:
`format_descriptor<double>` (`coord_t`) and `format_descriptor<CDT::VertInd>`
(an unsigned integer type); they are distinct format strings. -/
inductive PyFormat where
  | double
  | vertInd
  | other (s : String)
deriving DecidableEq, Repr

/-- A Python buffer as seen through `py::buffer_info`: its element format, its
shape, and the flat sequence of element values (the model uses exact integers
for the payload).  `ndim` is the number of axes and `size` the total element
count, as in pybind11. -/
structure PyBuffer where
  format : PyFormat
  shape : List ℕ
  values : List ℤ
deriving DecidableEq, Repr

/-- Number of axes of the buffer (pybind11 `buffer_info::ndim`). -/
def PyBuffer.ndim (b : PyBuffer) : ℕ := b.shape.length

/-- Total element count of the buffer (pybind11 `buffer_info::size`, the
product of the shape). -/
def PyBuffer.size (b : PyBuffer) : ℕ := b.shape.prod

/-- Group a flat coordinate sequence into consecutive pairs, as the
`insert_vertices` buffer overload does via its `XY` struct view. -/
def toPairs : List ℤ → List (ℤ × ℤ)
  | x :: y :: rest => (x, y) :: toPairs rest
  | _ => []

/-- The sanity checks of the `insert_vertices` buffer overload
(`src/cdt_bindings.cpp` lines 258–273), in source order: element format must
be `double`, dimensionality must be 1 or 2, and the total element count must
be even.  Returns the raised error message, or `none` when the buffer is
accepted. -/
def validateVertexBuffer (b : PyBuffer) : Option String :=
  if b.format ≠ PyFormat.double then
    some "Incompatible format: expected a double array!"
  else if b.ndim ≠ 1 ∧ b.ndim ≠ 2 then
    some "Incompatible buffer dimension!"
  else if b.size % 2 ≠ 0 then
    some "Buffer must hold even number of coordinates (2 per vertex)!"
  else none

/-- The sanity checks shared by the `insert_edges` and `conform_to_edges`
buffer overloads (`src/cdt_bindings.cpp` lines 296–312 and 335–351): element
format must be `CDT::VertInd`, dimensionality must be 1 or 2, and the total
element count must be even. -/
def validateEdgeBuffer (b : PyBuffer) : Option String :=
  if b.format ≠ PyFormat.vertInd then
    some "Incompatible format: expected a CDT::VertInd array!"
  else if b.ndim ≠ 1 ∧ b.ndim ≠ 2 then
    some "Incompatible buffer dimension!"
  else if b.size % 2 ≠ 0 then
    some "Buffer must hold even number of CDT::VertInd (2 per edge)!"
  else none

/-- The `insert_vertices` buffer overload: validate, then forward the buffer
contents to the engine as consecutive `(x, y)` pairs.  An engine failure also
surfaces as an error, distinct from the validation messages. -/
def insert_vertices_buffer (fuel : ℕ) (m : Mesh) (b : PyBuffer) :
    Except String Mesh :=
  match validateVertexBuffer b with
  | some e => .error e
  | none =>
    match insertVertices fuel m (toPairs b.values) with
    | some m2 => .ok m2
    | none => .error "CDT engine failure"

/-- The `insert_edges` buffer overload: validate, then forward the buffer
contents to the engine as consecutive vertex-index pairs. -/
def insert_edges_buffer (fuel : ℕ) (m : Mesh) (b : PyBuffer) :
    Except String Mesh :=
  match validateEdgeBuffer b with
  | some e => .error e
  | none =>
    match insertEdges fuel m ((toPairs b.values).map fun p => (p.1.toNat, p.2.toNat)) with
    | some m2 => .ok m2
    | none => .error "CDT engine failure"

/-- The `conform_to_edges` buffer overload: validate, then forward the buffer
contents to the engine as consecutive vertex-index pairs. -/
def conform_to_edges_buffer (fuel : ℕ) (m : Mesh) (b : PyBuffer) :
    Except String Mesh :=
  match validateEdgeBuffer b with
  | some e => .error e
  | none =>
    match conformToEdges fuel m ((toPairs b.values).map fun p => (p.1.toNat, p.2.toNat)) with
    | some m2 => .ok m2
    | none => .error "CDT engine failure"

/-- The state of the Python-side `Triangulation` object after a call whose
result is `r`: a raised error leaves the object exactly as it was (the C++
overloads throw before any mutation), a normal return publishes the new
mesh. -/
def stateAfter (m : Mesh) : Except String Mesh → Mesh
  | .ok m2 => m2
  | .error _ => m

/-- The bound `CDT::Edge` class: two vertex indices, exposed through the
read-only accessors `v1` and `v2`. -/
structure CdtEdge where
  v1 : ℕ
  v2 : ℕ
deriving DecidableEq, Repr

/-- Modelled from the spec: the `Edge(index_vert_a, index_vert_b)` constructor
canonicalizes the unordered pair so that the smaller index comes first. -/
def mkEdge (a b : ℕ) : CdtEdge := if a < b then ⟨a, b⟩ else ⟨b, a⟩

/-- Modelled from the spec: the hash of an Edge, a function of its canonical
vertex pair (so order-independent equality implies equal hashes). -/
def edgeHash (e : CdtEdge) : ℕ := e.v1 * 2654435769 + e.v2

/-- The buffer exported by `Edge`'s buffer protocol (`src/cdt_bindings.cpp`
lines 150–158): the items are the two vertex indices (with `VertInd` item
size), but the declared format descriptor is the one of `coord_t`, i.e.
`double`, exactly as written in the source. -/
def edgeToBuffer (e : CdtEdge) : PyBuffer :=
  { format := PyFormat.double
    shape := [2]
    values := [(e.v1 : ℤ), (e.v2 : ℤ)] }

/-- The `Edge` buffer constructor (`src/cdt_bindings.cpp` lines 136–149): it
requires the `CDT::VertInd` format descriptor and a one-dimensional buffer,
then reads the two indices. -/
def edgeFromBuffer (b : PyBuffer) : Except String CdtEdge :=
  if b.format ≠ PyFormat.vertInd then
    .error "Incompatible format: expected a CDT::VertInd array!"
  else if b.ndim ≠ 1 then
    .error "Incompatible buffer dimension!"
  else
    .ok (mkEdge (b.values.getD 0 0).toNat (b.values.getD 1 0).toNat)

/-- A C++ `double` as the bound `V2d` class stores one: a numeric value
(exact, as everywhere in this development) or a NaN.  Only the
numeric-versus-NaN distinction matters to the equality semantics under
study. -/
inductive Double where
  | num (q : ℚ)
  | nan
deriving DecidableEq, Repr

/-- Whether a double is a NaN. -/
def Double.isNaN : Double → Bool
  | .num _ => false
  | .nan => true

/-- The IEEE-754 `==` comparison on doubles: any comparison involving a NaN
is false (a NaN is unequal even to itself); numeric values compare by
value. -/
def ieeeEq : Double → Double → Bool
  | .num a, .num b => decide (a = b)
  | _, _ => false

/-- The bound `V2d` class: a 2D coordinate pair of doubles. -/
structure V2d where
  x : Double
  y : Double
deriving DecidableEq, Repr

/-- The `V2d.__eq__` binding (`src/cdt_bindings.cpp` lines 82–86): the
coordinate-wise conjunction `lhs.x == rhs.x && lhs.y == rhs.y` of the IEEE
`==` comparisons. -/
def v2dEq (lhs rhs : V2d) : Bool :=
  ieeeEq lhs.x rhs.x && ieeeEq lhs.y rhs.y

/-! ## Theorems -/

/-- C7: Edge is an unordered, canonicalized pair of vertex indices: for all
vertex indices `a` and `b`, `Edge(a, b)` and `Edge(b, a)` compare equal, have
equal hashes, and expose the same `v1`/`v2` values, namely the smaller index
first. -/
theorem edge_unordered_canonical (a b : ℕ) :
    mkEdge a b = mkEdge b a ∧ edgeHash (mkEdge a b) = edgeHash (mkEdge b a) ∧
      (mkEdge a b).v1 = min a b ∧ (mkEdge a b).v2 = max a b := by
  have h : mkEdge a b = mkEdge b a := by
    unfold mkEdge
    rcases Nat.lt_trichotomy a b with h | h | h
    · rw [if_pos h, if_neg (by omega)]
    · subst h; rfl
    · rw [if_neg (by omega), if_pos h]
  refine ⟨h, by rw [h], ?_, ?_⟩ <;>
    · unfold mkEdge
      split <;> simp <;> omega

/-- C8: the Edge buffer round trip always fails — the buffer exported by
`Edge`'s buffer protocol declares the `double` format descriptor while the
buffer constructor requires the `CDT::VertInd` format, so reconstructing an
`Edge` from its own exported buffer always raises the incompatible-format
error. -/
theorem edge_buffer_roundtrip_fails (e : CdtEdge) :
    edgeFromBuffer (edgeToBuffer e) =
      Except.error "Incompatible format: expected a CDT::VertInd array!" := rfl

/-- C9: the `insert_vertices` buffer overload rejects a buffer exactly when
its element format is not `double`, its dimensionality is neither 1 nor 2, or
its total element count is odd; the number of columns of a 2-D buffer is never
checked, so a shape-(1, 4) `double` buffer is accepted and its contents are
interpreted as consecutive `(x, y)` pairs. -/
theorem insert_vertices_buffer_error_iff :
    (∀ b : PyBuffer,
      (∃ msg, validateVertexBuffer b = some msg) ↔
        (b.format ≠ PyFormat.double ∨ (b.ndim ≠ 1 ∧ b.ndim ≠ 2) ∨
          b.size % 2 = 1)) ∧
    (∀ fuel m b, validateVertexBuffer b = none →
      insert_vertices_buffer fuel m b =
        match insertVertices fuel m (toPairs b.values) with
        | some m2 => Except.ok m2
        | none => Except.error "CDT engine failure") ∧
    validateVertexBuffer ⟨PyFormat.double, [1, 4], [0, 0, 1, 4]⟩ = none ∧
    toPairs [0, 0, 1, 4] = [(0, 0), (1, 4)] := by
  refine ⟨?_, ?_, by decide, rfl⟩
  · intro b
    unfold validateVertexBuffer
    split_ifs with h1 h2 h3 <;> simp_all <;> omega
  · intro fuel m b hv
    unfold insert_vertices_buffer
    rw [hv]

/-- C4 helper: a buffer with an odd total element count is rejected by both
validation routines (the odd-count check fires unless an earlier format or
dimension check already raised). -/
theorem validate_odd_rejects (b : PyBuffer) (h : b.size % 2 = 1) :
    (∃ msg, validateVertexBuffer b = some msg) ∧
      (∃ msg, validateEdgeBuffer b = some msg) := by
  constructor
  · unfold validateVertexBuffer
    split_ifs with h1 h2 h3 <;> first | exact ⟨_, rfl⟩ | omega
  · unfold validateEdgeBuffer
    split_ifs with h1 h2 h3 <;> first | exact ⟨_, rfl⟩ | omega

/-- C4: for every buffer passed to `insert_vertices`, `insert_edges` or
`conform_to_edges` whose total element count is odd, the call reports an error
synchronously and the mesh is left exactly in its prior state — no partial
mutation is committed. -/
theorem odd_buffer_rejected (fuel : ℕ) (m : Mesh) (b : PyBuffer)
    (h : b.size % 2 = 1) :
    ((∃ e, insert_vertices_buffer fuel m b = Except.error e) ∧
      stateAfter m (insert_vertices_buffer fuel m b) = m) ∧
    ((∃ e, insert_edges_buffer fuel m b = Except.error e) ∧
      stateAfter m (insert_edges_buffer fuel m b) = m) ∧
    ((∃ e, conform_to_edges_buffer fuel m b = Except.error e) ∧
      stateAfter m (conform_to_edges_buffer fuel m b) = m) := by
  obtain ⟨⟨mv, hv⟩, ⟨me, he⟩⟩ := validate_odd_rejects b h
  refine ⟨⟨⟨mv, ?_⟩, ?_⟩, ⟨⟨me, ?_⟩, ?_⟩, ⟨⟨me, ?_⟩, ?_⟩⟩ <;>
    simp [insert_vertices_buffer, insert_edges_buffer, conform_to_edges_buffer,
      hv, he, stateAfter]

/-- C4 witness: a one-dimensional 3-element double buffer is odd-sized and is
rejected by all three mutators, leaving the mesh untouched. -/
theorem odd_buffer_rejected_witness :
    (⟨PyFormat.double, [3], [0, 0, 0]⟩ : PyBuffer).size % 2 = 1 ∧
    (((∃ e, insert_vertices_buffer 5 initMesh ⟨PyFormat.double, [3], [0, 0, 0]⟩ =
          Except.error e) ∧
        stateAfter initMesh
            (insert_vertices_buffer 5 initMesh ⟨PyFormat.double, [3], [0, 0, 0]⟩) =
          initMesh) ∧
      ((∃ e, insert_edges_buffer 5 initMesh ⟨PyFormat.double, [3], [0, 0, 0]⟩ =
          Except.error e) ∧
        stateAfter initMesh
            (insert_edges_buffer 5 initMesh ⟨PyFormat.double, [3], [0, 0, 0]⟩) =
          initMesh) ∧
      ((∃ e, conform_to_edges_buffer 5 initMesh ⟨PyFormat.double, [3], [0, 0, 0]⟩ =
          Except.error e) ∧
        stateAfter initMesh
            (conform_to_edges_buffer 5 initMesh ⟨PyFormat.double, [3], [0, 0, 0]⟩) =
          initMesh)) :=
  ⟨by decide, odd_buffer_rejected 5 initMesh ⟨PyFormat.double, [3], [0, 0, 0]⟩ (by decide)⟩

/-- The spec's round-trip example, run through the modelled pipeline: insert
the four unit-square corners, constrain the diagonal `(0, 2)`, erase the
super-triangle. -/
def roundTripMesh : Option Mesh :=
  (insertVertices 40 initMesh [(0, 0), (1, 0), (1, 1), (0, 1)]).bind fun m1 =>
    (insertEdges 40 m1 [(0, 2)]).bind fun m2 =>
      some (eraseSuperTriangle m2)

/-- C2: inserting the vertices `(0,0), (1,0), (1,1), (0,1)`, then the
constraint edge `(0, 2)`, then erasing the super-triangle yields a mesh with
exactly 2 triangles, 5 distinct edges of which exactly 1 is fixed, and
`verify_topology` reports no violations. -/
theorem square_roundtrip_example :
    roundTripMesh.map (fun m =>
        (m.triangles.length, (meshEdges m).length, m.fixedEdges.length,
          verifyTopology m)) =
      some (2, 5, 1, []) := by decide

/-- The flip loop only returns meshes that pass the global Delaunay legality
check. -/
theorem fixDelaunay_legal {fuel : ℕ} {m m2 : Mesh}
    (h : fixDelaunay fuel m = some m2) : delaunayLegalB m2 = true := by
  induction fuel generalizing m with
  | zero =>
    unfold fixDelaunay at h
    by_cases hL : delaunayLegalB m = true
    · rw [if_pos hL] at h
      obtain rfl := Option.some.inj h
      exact hL
    · rw [if_neg hL] at h
      exact absurd h (by simp)
  | succ n ih =>
    unfold fixDelaunay at h
    by_cases hL : delaunayLegalB m = true
    · rw [if_pos hL] at h
      obtain rfl := Option.some.inj h
      exact hL
    · rw [if_neg hL] at h
      rcases hf : findFlip m with - | ⟨i, j, t1, t2⟩
      · rw [hf] at h; exact absurd h (by simp)
      · rw [hf] at h; exact ih h

/-- A mesh that already passes the legality check is returned unchanged by the
flip loop, for any fuel. -/
theorem fixDelaunay_of_legal {m : Mesh} (fuel : ℕ)
    (h : delaunayLegalB m = true) : fixDelaunay fuel m = some m := by
  cases fuel <;> · unfold fixDelaunay; rw [if_pos h]

/-- C1: after any call to `insert_vertices` returns, every triangle of the
mesh with no constrained (fixed) edge satisfies the Delaunay legality
condition: no other mesh vertex lies strictly inside its circumcircle.
Triangles with a constrained edge are exempt. -/
theorem insert_vertices_delaunay_legal (fuel : ℕ) (m : Mesh) (pts : List Pt)
    (m2 : Mesh) (h : insertVertices fuel m pts = some m2) :
    ∀ t ∈ m2.triangles, hasFixedEdge m2 t = false →
      ∀ v, v < m2.vertices.length → v ∉ triVerts t →
        strictlyInCircumcircle (vtx m2 t.a) (vtx m2 t.b) (vtx m2 t.c)
          (vtx m2 v) = false := by
  unfold insertVertices at h
  obtain ⟨m1, -, h2⟩ := Option.bind_eq_some.mp h
  have hleg := fixDelaunay_legal h2
  intro t ht hfix v hv hvt
  have h3 := (List.all_eq_true.mp hleg) t ht
  rw [Bool.or_eq_true] at h3
  rcases h3 with h3 | h3
  · rw [hfix] at h3
    exact absurd h3 (by simp)
  · unfold triLegalB at h3
    have h4 := (List.all_eq_true.mp h3) v (List.mem_range.mpr hv)
    rw [Bool.or_eq_true] at h4
    rcases h4 with h4 | h4
    · exact absurd (of_decide_eq_true h4) hvt
    · simpa using h4

/-- The mesh produced by a small concrete `insert_vertices` run, for the C1
witness. -/
def c1Mesh : Mesh :=
  (insertVertices 20 initMesh [(0, 0), (2, 1)]).getD initMesh

/-- C1 witness: a concrete two-point insertion returns, and every triangle of
its result without a fixed edge has an empty circumcircle. -/
theorem insert_vertices_delaunay_legal_witness :
    insertVertices 20 initMesh [(0, 0), (2, 1)] = some c1Mesh ∧
    (∀ t ∈ c1Mesh.triangles, hasFixedEdge c1Mesh t = false →
      ∀ v, v < c1Mesh.vertices.length → v ∉ triVerts t →
        strictlyInCircumcircle (vtx c1Mesh t.a) (vtx c1Mesh t.b)
          (vtx c1Mesh t.c) (vtx c1Mesh v) = false) :=
  ⟨by decide,
    insert_vertices_delaunay_legal 20 initMesh [(0, 0), (2, 1)] c1Mesh (by decide)⟩

/-- Bumping an edge's overlap count increments exactly that edge's recorded
count (an absent edge starts from 0 and gets entry 1). -/
theorem lookupCount_bumpCount_self (l : List ((ℕ × ℕ) × ℕ)) (e : ℕ × ℕ) :
    lookupCount (bumpCount l e) e = lookupCount l e + 1 := by
  induction l with
  | nil => simp [bumpCount, lookupCount, List.find?]
  | cons p rest ih =>
    by_cases hp : p.1 = e
    · simp [bumpCount, hp, lookupCount, List.find?]
    · simp only [bumpCount, if_neg hp]
      simp [lookupCount, List.find?, hp] at ih ⊢
      exact ih

/-- Bumping an edge's overlap count leaves every other edge's count
unchanged. -/
theorem lookupCount_bumpCount_other (l : List ((ℕ × ℕ) × ℕ)) (e e2 : ℕ × ℕ)
    (hne : e2 ≠ e) : lookupCount (bumpCount l e) e2 = lookupCount l e2 := by
  have hne2 : e ≠ e2 := Ne.symm hne
  induction l with
  | nil => simp [bumpCount, lookupCount, List.find?, hne2]
  | cons p rest ih =>
    by_cases hp : p.1 = e
    · simp [bumpCount, hp, lookupCount, List.find?, hne2]
    · simp only [bumpCount, if_neg hp]
      by_cases hp2 : p.1 = e2
      · simp [lookupCount, List.find?, hp2]
      · simp [lookupCount, List.find?, hp2] at ih ⊢
        exact ih

/-- The overlap-count invariant of the fixed-edge registry: every fixed edge
is mapped to an overlap count of at least 1. -/
def OverlapInv (m : Mesh) : Prop :=
  ∀ e ∈ m.fixedEdges, 1 ≤ lookupCount m.overlapCount e

instance (m : Mesh) : Decidable (OverlapInv m) := by
  unfold OverlapInv
  infer_instance

/-- Marking an edge fixed preserves and extends the overlap-count
invariant. -/
theorem overlapInv_fixEdge {m : Mesh} (hinv : OverlapInv m) (e : ℕ × ℕ) :
    OverlapInv (fixEdge m e) := by
  unfold fixEdge
  by_cases he : e ∈ m.fixedEdges
  · rw [if_pos he]
    intro e2 he2
    by_cases hee : e2 = e
    · subst hee
      rw [lookupCount_bumpCount_self]
      omega
    · rw [lookupCount_bumpCount_other _ _ _ hee]
      exact hinv e2 he2
  · rw [if_neg he]
    intro e2 he2
    rcases List.mem_append.mp he2 with h2 | h2
    · have hee : e2 ≠ e := fun h => he (h ▸ h2)
      rw [lookupCount_bumpCount_other _ _ _ hee]
      exact hinv e2 h2
    · obtain rfl := List.mem_singleton.mp h2
      rw [lookupCount_bumpCount_self]
      omega

/-- The flip loop never touches the fixed-edge registry or the overlap
counts. -/
theorem fixDelaunay_registry {fuel : ℕ} {m m2 : Mesh}
    (h : fixDelaunay fuel m = some m2) :
    m2.fixedEdges = m.fixedEdges ∧ m2.overlapCount = m.overlapCount := by
  induction fuel generalizing m with
  | zero =>
    unfold fixDelaunay at h
    by_cases hL : delaunayLegalB m = true
    · rw [if_pos hL] at h
      obtain rfl := Option.some.inj h
      exact ⟨rfl, rfl⟩
    · rw [if_neg hL] at h
      exact absurd h (by simp)
  | succ n ih =>
    unfold fixDelaunay at h
    by_cases hL : delaunayLegalB m = true
    · rw [if_pos hL] at h
      obtain rfl := Option.some.inj h
      exact ⟨rfl, rfl⟩
    · rw [if_neg hL] at h
      rcases hf : findFlip m with - | ⟨i, j, t1, t2⟩
      · rw [hf] at h; exact absurd h (by simp)
      · rw [hf] at h
        exact @ih (applyFlip m i j t1 t2) h

/-- Inserting one constraint edge preserves the overlap-count invariant. -/
theorem overlapInv_insertOneEdge {m m2 : Mesh} (hinv : OverlapInv m)
    {e : ℕ × ℕ} (h : insertOneEdge m e = some m2) : OverlapInv m2 := by
  unfold insertOneEdge at h
  by_cases hm : edgeInMesh m e = true
  · rw [if_pos hm] at h
    obtain rfl := Option.some.inj h
    exact overlapInv_fixEdge hinv e
  · rw [if_neg hm] at h
    rcases hf : findEdgeFlip m e with - | ⟨i, j, t1, t2⟩
    · rw [hf] at h; exact absurd h (by simp)
    · rw [hf] at h
      obtain rfl := Option.some.inj h
      have hinv2 : OverlapInv (applyFlip m i j t1 t2) := fun e2 he2 => hinv e2 he2
      exact overlapInv_fixEdge hinv2 e

/-- The constraint-insertion fold starting from a failed state stays
failed. -/
theorem foldl_insertOneEdge_none (l : List (ℕ × ℕ)) :
    l.foldl
        (fun om e =>
          om.bind fun m0 =>
            insertOneEdge m0 (canonEdge (e.1 + nSuperVerts) (e.2 + nSuperVerts)))
        none = none := by
  induction l with
  | nil => rfl
  | cons x xs ihx => rw [List.foldl_cons, Option.none_bind]; exact ihx

/-- The constraint-insertion fold preserves the overlap-count invariant. -/
theorem overlapInv_fold {es : List (ℕ × ℕ)} :
    ∀ {m m2 : Mesh}, OverlapInv m →
      es.foldl
          (fun om e =>
            om.bind fun m0 =>
              insertOneEdge m0 (canonEdge (e.1 + nSuperVerts) (e.2 + nSuperVerts)))
          (some m) = some m2 →
      OverlapInv m2 := by
  induction es with
  | nil =>
    intro m m2 hinv h
    obtain rfl := Option.some.inj h
    exact hinv
  | cons e rest ih =>
    intro m m2 hinv h
    rw [List.foldl_cons, Option.some_bind] at h
    rcases h1 : insertOneEdge m (canonEdge (e.1 + nSuperVerts) (e.2 + nSuperVerts))
      with - | m1
    · rw [h1, foldl_insertOneEdge_none] at h
      exact absurd h (by simp)
    · rw [h1] at h
      exact ih (overlapInv_insertOneEdge hinv h1) h

/-- C5: every fixed edge in the registry carries an overlap count of at least
one, and re-inserting an already-fixed edge through `insert_edges` increments
exactly that edge's overlap count while changing neither the triangles nor the
fixed-edge set. -/
theorem insert_edges_overlap_counting :
    (∀ fuel (m : Mesh) es m2, OverlapInv m →
      insertEdges fuel m es = some m2 → OverlapInv m2) ∧
    (∀ fuel (m : Mesh) a b,
      delaunayLegalB m = true →
      canonEdge (a + nSuperVerts) (b + nSuperVerts) ∈ m.fixedEdges →
      edgeInMesh m (canonEdge (a + nSuperVerts) (b + nSuperVerts)) = true →
      ∃ m2, insertEdges fuel m [(a, b)] = some m2 ∧
        lookupCount m2.overlapCount (canonEdge (a + nSuperVerts) (b + nSuperVerts)) =
          lookupCount m.overlapCount (canonEdge (a + nSuperVerts) (b + nSuperVerts))
            + 1 ∧
        m2.triangles = m.triangles ∧ m2.fixedEdges = m.fixedEdges) := by
  constructor
  · intro fuel m es m2 hinv h
    unfold insertEdges at h
    obtain ⟨m1, h1, h2⟩ := Option.bind_eq_some.mp h
    have hinv1 := overlapInv_fold hinv h1
    obtain ⟨hf, ho⟩ := fixDelaunay_registry h2
    intro e2 he2
    rw [ho]
    rw [hf] at he2
    exact hinv1 e2 he2
  · intro fuel m a b hleg hfix hmesh
    set e := canonEdge (a + nSuperVerts) (b + nSuperVerts) with he
    have hstep : insertOneEdge m e = some (fixEdge m e) := by
      unfold insertOneEdge
      rw [if_pos hmesh]
    have hfe : fixEdge m e =
        { m with overlapCount := bumpCount m.overlapCount e } := by
      unfold fixEdge
      rw [if_pos hfix]
    have hleg2 : delaunayLegalB (fixEdge m e) = true := by
      rw [hfe]
      exact hleg
    refine ⟨fixEdge m e, ?_, ?_, ?_, ?_⟩
    · unfold insertEdges
      rw [List.foldl_cons, List.foldl_nil, Option.some_bind]
      show (insertOneEdge m e).bind (fixDelaunay fuel) = some (fixEdge m e)
      rw [hstep, Option.some_bind]
      exact fixDelaunay_of_legal fuel hleg2
    · rw [hfe]
      exact lookupCount_bumpCount_self m.overlapCount e
    · rw [hfe]
    · rw [hfe]

/-- A small concrete mesh with one triangle whose edge `(3, 4)` (user edge
`(0, 1)`) is already fixed with overlap count 1, for the C5 witness. -/
def c5Mesh : Mesh :=
  { vertices := [(-9, -8), (23, -7), (-5, 29), (0, 0), (1, 0), (0, 1)]
    triangles := [⟨3, 4, 5⟩]
    fixedEdges := [(3, 4)]
    overlapCount := [((3, 4), 1)] }

/-- C5 witness: the invariant holds on a concrete run, and re-inserting the
already-fixed user edge `(0, 1)` bumps its overlap count from 1 to 2 without
touching the triangles. -/
theorem insert_edges_overlap_counting_witness :
    (OverlapInv ((insertEdges 4 c5Mesh [(0, 1)]).getD c5Mesh)) ∧
    (∃ m2, insertEdges 4 c5Mesh [(0, 1)] = some m2 ∧
      lookupCount m2.overlapCount (canonEdge (0 + nSuperVerts) (1 + nSuperVerts)) =
        lookupCount c5Mesh.overlapCount
            (canonEdge (0 + nSuperVerts) (1 + nSuperVerts)) + 1 ∧
      m2.triangles = c5Mesh.triangles ∧ m2.fixedEdges = c5Mesh.fixedEdges) :=
  ⟨insert_edges_overlap_counting.1 4 c5Mesh [(0, 1)]
      ((insertEdges 4 c5Mesh [(0, 1)]).getD c5Mesh) (by decide) (by decide),
    insert_edges_overlap_counting.2 4 c5Mesh 0 1 (by decide) (by decide) (by decide)⟩

/-- Characterization of an empty adjacency-integrity check. -/
theorem checkOveruse_eq_nil (m : Mesh) :
    checkOveruse m = [] ↔ ∀ e ∈ meshEdges m, countEdge m.triangles e ≤ 2 := by
  unfold checkOveruse
  rw [List.filterMap_eq_nil]
  constructor
  · intro h e he
    have hb := h e he
    by_cases hc : 2 < countEdge m.triangles e
    · rw [if_pos hc] at hb
      exact absurd hb (by simp)
    · omega
  · intro h e he
    rw [if_neg (Nat.not_lt.mpr (h e he))]

/-- Characterization of an empty non-degeneracy check. -/
theorem checkDegenerate_eq_nil (m : Mesh) :
    checkDegenerate m = [] ↔ ∀ t ∈ m.triangles, isDegenerateTri m t = false := by
  unfold checkDegenerate
  rw [List.filterMap_eq_nil]
  constructor
  · intro h t ht
    have hb := h t ht
    by_cases hd : isDegenerateTri m t = true
    · rw [if_pos hd] at hb
      exact absurd hb (by simp)
    · simpa using hd
  · intro h t ht
    rw [if_neg (by rw [h t ht]; simp)]

/-- Characterization of an empty vertex-incidence check. -/
theorem checkOrphans_eq_nil (m : Mesh) :
    checkOrphans m = [] ↔
      ∀ v, v < m.vertices.length → ∃ t ∈ m.triangles, v ∈ triVerts t := by
  unfold checkOrphans
  rw [List.filterMap_eq_nil]
  constructor
  · intro h v hv
    have hb := h v (List.mem_range.mpr hv)
    by_cases ha : m.triangles.any (fun t => decide (v ∈ triVerts t)) = true
    · obtain ⟨t, ht, hd⟩ := List.any_eq_true.mp ha
      exact ⟨t, ht, of_decide_eq_true hd⟩
    · rw [if_neg ha] at hb
      exact absurd hb (by simp)
  · intro h v hv
    obtain ⟨t, ht, hvt⟩ := h v (List.mem_range.mp hv)
    rw [if_pos (List.any_eq_true.mpr ⟨t, ht, decide_eq_true hvt⟩)]

/-- Characterization of an empty fixed-edge-presence check. -/
theorem checkFixedPresent_eq_nil (m : Mesh) :
    checkFixedPresent m = [] ↔ ∀ e ∈ m.fixedEdges, edgeInMesh m e = true := by
  unfold checkFixedPresent
  rw [List.filterMap_eq_nil]
  constructor
  · intro h e he
    have hb := h e he
    by_cases hm : edgeInMesh m e = true
    · exact hm
    · rw [if_neg hm] at hb
      exact absurd hb (by simp)
  · intro h e he
    rw [if_pos (h e he)]

/-- Characterization of a clean local Delaunay probe of one triangle pair. -/
theorem localPairViolation_eq_none (m : Mesh) (t1 t2 : Tri) :
    localPairViolation m t1 t2 = none ↔
      ∀ e ∈ triEdges t1, e ∈ triEdges t2 → e ∉ m.fixedEdges →
        ∀ p q, oppositeVertex t1 e = some p → oppositeVertex t2 e = some q →
          strictlyInCircumcircle (vtx m e.1) (vtx m e.2) (vtx m p) (vtx m q) =
            false := by
  unfold localPairViolation
  rw [List.findSome?_eq_none]
  constructor
  · intro h e he he2 hf p q hp hq
    have hb := h e he
    rw [if_pos (by simp [he2, hf])] at hb
    rw [hp, hq] at hb
    by_cases hs : strictlyInCircumcircle (vtx m e.1) (vtx m e.2) (vtx m p)
        (vtx m q) = true
    · simp [hs] at hb
    · simpa using hs
  · intro h e he
    by_cases h2 : e ∈ triEdges t2
    · by_cases hf : e ∈ m.fixedEdges
      · rw [if_neg (by simp [hf])]
      · rw [if_pos (by simp [h2, hf])]
        rcases hp : oppositeVertex t1 e with - | p <;>
          rcases hq : oppositeVertex t2 e with - | q <;>
          simp only [] <;>
          first
            | rfl
            | (rw [h e he h2 hf p q hp hq]; rfl)
    · rw [if_neg (by simp [h2])]

/-- Characterization of an empty local Delaunay check. -/
theorem checkDelaunay_eq_nil (m : Mesh) :
    checkDelaunay m = [] ↔
      ∀ i j t1 t2, i < j → m.triangles.get? i = some t1 →
        m.triangles.get? j = some t2 →
        ∀ e ∈ triEdges t1, e ∈ triEdges t2 → e ∉ m.fixedEdges →
          ∀ p q, oppositeVertex t1 e = some p → oppositeVertex t2 e = some q →
            strictlyInCircumcircle (vtx m e.1) (vtx m e.2) (vtx m p) (vtx m q) =
              false := by
  unfold checkDelaunay
  rw [List.filterMap_eq_nil]
  constructor
  · intro h i j t1 t2 hij h1 h2
    obtain ⟨hi, -⟩ := List.get?_eq_some.mp h1
    obtain ⟨hj, -⟩ := List.get?_eq_some.mp h2
    have hb := h (i, j)
      (List.pair_mem_product.mpr ⟨List.mem_range.mpr hi, List.mem_range.mpr hj⟩)
    rw [if_pos hij] at hb
    rw [h1, h2] at hb
    exact (localPairViolation_eq_none m t1 t2).mp hb
  · intro h ij hij
    by_cases hlt : ij.1 < ij.2
    · rw [if_pos hlt]
      rcases h1 : m.triangles.get? ij.1 with - | t1 <;>
        rcases h2 : m.triangles.get? ij.2 with - | t2 <;>
        simp only [] <;>
        first
          | rfl
          | exact (localPairViolation_eq_none m t1 t2).mpr
              (fun e he he2 hf p q hp hq =>
                h ij.1 ij.2 t1 t2 hlt h1 h2 e he he2 hf p q hp hq)
    · rw [if_neg hlt]

/-- The verifier finds no violations exactly when all five mesh invariants
hold. -/
theorem verifyTopology_eq_nil (m : Mesh) : verifyTopology m = [] ↔ MeshValid m := by
  unfold verifyTopology MeshValid
  simp only [List.append_eq_nil]
  rw [checkOveruse_eq_nil, checkDegenerate_eq_nil, checkOrphans_eq_nil,
    checkFixedPresent_eq_nil, checkDelaunay_eq_nil]
  tauto

/-- A deliberately broken mesh: a degenerate triangle, an orphan vertex and a
fixed edge absent from the mesh, so the verifier has several distinct findings
to report in one pass. -/
def badMesh : Mesh :=
  { vertices := [(0, 0), (5, 7)]
    triangles := [⟨0, 0, 0⟩]
    fixedEdges := [(0, 1)]
    overlapCount := [] }

/-- C3: `verify_topology` is a pure function of the mesh returning the
collection of violations found — empty exactly when the mesh invariants all
hold — rather than halting on the first failure: a single call can report
multiple distinct violations, as on `badMesh` where one pass reports both a
degenerate triangle and an orphan vertex (and a missing fixed edge). -/
theorem verify_topology_reports_all_violations :
    (∀ m, verifyTopology m = [] ↔ MeshValid m) ∧
    Violation.degenerateTri ⟨0, 0, 0⟩ ∈ verifyTopology badMesh ∧
    Violation.vertexOrphan 1 ∈ verifyTopology badMesh ∧
    Violation.fixedEdgeMissing (0, 1) ∈ verifyTopology badMesh :=
  ⟨verifyTopology_eq_nil, by decide, by decide, by decide⟩

/-- `List.any` only depends on the predicate's values on the list's
elements. -/
theorem any_congr_mem {α : Type} (l : List α) (f g : α → Bool)
    (h : ∀ a ∈ l, f a = g a) : l.any f = l.any g := by
  induction l with
  | nil => rfl
  | cons a l ih =>
    simp only [List.any_cons]
    rw [h a (List.mem_cons_self a l), ih fun a2 ha2 => h a2 (List.mem_cons_of_mem a ha2)]

/-- The flood-fill approximations grow with the round count. -/
theorem outerIter_succ_of (ts : List Tri) (fixed : List (ℕ × ℕ)) :
    ∀ k t, outerIter ts fixed k t = true → outerIter ts fixed (k + 1) t = true := by
  intro k
  induction k with
  | zero => intro t h; exact absurd h (by simp [outerIter])
  | succ n ih =>
    intro t h
    unfold outerIter at h ⊢
    rw [Bool.or_eq_true] at h ⊢
    rcases h with h | h
    · exact Or.inl h
    · refine Or.inr ?_
      obtain ⟨t2, ht2, hb⟩ := List.any_eq_true.mp h
      rw [Bool.and_eq_true] at hb
      exact List.any_eq_true.mpr ⟨t2, ht2, by rw [ih t2 hb.1, hb.2]; rfl⟩

/-- Once one expansion round changes nothing on the mesh's triangles, the next
round changes nothing anywhere. -/
theorem outerIter_stable_step (ts : List Tri) (fixed : List (ℕ × ℕ)) (k : ℕ)
    (hst : ∀ t2 ∈ ts, outerIter ts fixed (k + 1) t2 = outerIter ts fixed k t2) :
    ∀ t, outerIter ts fixed (k + 2) t = outerIter ts fixed (k + 1) t := by
  intro t
  show (isBoundarySeed ts fixed t ||
      ts.any fun t2 => outerIter ts fixed (k + 1) t2 && adjNonFixed fixed t2 t) =
    (isBoundarySeed ts fixed t ||
      ts.any fun t2 => outerIter ts fixed k t2 && adjNonFixed fixed t2 t)
  rw [any_congr_mem ts _ _ fun t2 ht2 => by rw [hst t2 ht2]]

/-- From a stabilization point on, every round is equal to the next. -/
theorem outerIter_stable_from (ts : List Tri) (fixed : List (ℕ × ℕ)) (k : ℕ)
    (hst : ∀ t2 ∈ ts, outerIter ts fixed (k + 1) t2 = outerIter ts fixed k t2) :
    ∀ j, k + 1 ≤ j → ∀ t, outerIter ts fixed (j + 1) t = outerIter ts fixed j t := by
  intro j hj
  induction j, hj using Nat.le_induction with
  | base => exact outerIter_stable_step ts fixed k hst
  | succ n hn ihn =>
    exact outerIter_stable_step ts fixed n fun t2 ht2 => ihn t2

/-- Some expansion round at or below the number of triangles changes nothing
on the mesh's triangles (the flood fill saturates). -/
theorem outerIter_exists_stable (ts : List Tri) (fixed : List (ℕ × ℕ)) :
    ∃ k ≤ ts.length,
      ∀ t2 ∈ ts, outerIter ts fixed (k + 1) t2 = outerIter ts fixed k t2 := by
  by_contra hno
  push_neg at hno
  have hcard : ∀ k, k ≤ ts.length + 1 →
      k ≤ (ts.toFinset.filter fun t => outerIter ts fixed k t = true).card := by
    intro k
    induction k with
    | zero => intro _; exact Nat.zero_le _
    | succ n ihn =>
      intro hn
      have hsub : (ts.toFinset.filter fun t => outerIter ts fixed n t = true) ⊆
          ts.toFinset.filter fun t => outerIter ts fixed (n + 1) t = true := by
        intro t ht
        rw [Finset.mem_filter] at ht ⊢
        exact ⟨ht.1, outerIter_succ_of ts fixed n t ht.2⟩
      obtain ⟨t2, ht2, hne⟩ := hno n (by omega)
      have ht2t : outerIter ts fixed n t2 = false := by
        rcases hb : outerIter ts fixed n t2 with - | -
        · rfl
        · exact absurd (outerIter_succ_of ts fixed n t2 hb) fun h => hne (by rw [h, hb])
      have ht2s : outerIter ts fixed (n + 1) t2 = true := by
        rcases hb : outerIter ts fixed (n + 1) t2 with - | -
        · exact absurd (by rw [hb, ht2t]) hne
        · rfl
      have hss : (ts.toFinset.filter fun t => outerIter ts fixed n t = true) ⊂
          ts.toFinset.filter fun t => outerIter ts fixed (n + 1) t = true := by
        rw [Finset.ssubset_iff_of_subset hsub]
        refine ⟨t2, ?_, ?_⟩
        · rw [Finset.mem_filter]
          exact ⟨List.mem_toFinset.mpr ht2, ht2s⟩
        · rw [Finset.mem_filter]
          rintro ⟨-, hc⟩
          rw [ht2t] at hc
          exact absurd hc (by simp)
      have := Finset.card_lt_card hss
      have := ihn (by omega)
      omega
  have h1 := hcard (ts.length + 1) (le_refl _)
  have h2 : (ts.toFinset.filter
      fun t => outerIter ts fixed (ts.length + 1) t = true).card ≤ ts.length :=
    le_trans (Finset.card_filter_le _ _) (List.toFinset_card_le ts)
  omega

/-- The saturated flood fill is a fixpoint of one expansion round: a triangle
is exterior exactly when it is a boundary seed or adjacent, across a non-fixed
edge, to an exterior triangle of the mesh. -/
theorem isOuter_fixpoint (ts : List Tri) (fixed : List (ℕ × ℕ)) (t : Tri) :
    isOuter ts fixed t =
      (isBoundarySeed ts fixed t ||
        ts.any fun t2 => isOuter ts fixed t2 && adjNonFixed fixed t2 t) := by
  obtain ⟨k, hk, hst⟩ := outerIter_exists_stable ts fixed
  have hT := outerIter_stable_from ts fixed k hst (ts.length + 1) (by omega) t
  exact hT.symm

/-- A boundary seed is exterior. -/
theorem seed_isOuter (ts : List Tri) (fixed : List (ℕ × ℕ)) (t : Tri)
    (h : isBoundarySeed ts fixed t = true) : isOuter ts fixed t = true := by
  rw [isOuter_fixpoint, h]
  rfl

/-- A triangle adjacent, across a non-fixed edge, to an exterior triangle of
the mesh is itself exterior. -/
theorem adj_isOuter (ts : List Tri) (fixed : List (ℕ × ℕ)) {t2 : Tri} (t : Tri)
    (hmem : t2 ∈ ts) (hout : isOuter ts fixed t2 = true)
    (hadj : adjNonFixed fixed t2 t = true) : isOuter ts fixed t = true := by
  rw [isOuter_fixpoint, Bool.or_eq_true]
  exact Or.inr (List.any_eq_true.mpr ⟨t2, hmem, by rw [hout, hadj]; rfl⟩)

/-- Counting over a list splits into the part kept by a filter and the part
rejected by it. -/
theorem countP_filter_split {α : Type} (l : List α) (p q : α → Bool) :
    l.countP p =
      (l.filter fun a => !q a).countP p + l.countP fun a => p a && q a := by
  induction l with
  | nil => rfl
  | cons a l ih =>
    rcases hp : p a with - | - <;> rcases hq : q a with - | - <;>
      simp [List.countP_cons, List.filter_cons, hp, hq, ih] <;> omega

/-- After `erase_outer_triangles`, no surviving triangle is a boundary seed:
every boundary edge of the carved mesh is a fixed edge. -/
theorem eraseOuter_no_seeds (m : Mesh) :
    ∀ t ∈ (eraseOuterTriangles m).triangles,
      isBoundarySeed (eraseOuterTriangles m).triangles m.fixedEdges t = false := by
  intro t ht
  have htf : t ∈ m.triangles.filter
      fun t2 => !isOuter m.triangles m.fixedEdges t2 := ht
  rw [List.mem_filter] at htf
  obtain ⟨htm, hkeep⟩ := htf
  have hout : isOuter m.triangles m.fixedEdges t = false := by
    rcases hb : isOuter m.triangles m.fixedEdges t with - | -
    · rfl
    · rw [hb] at hkeep
      exact absurd hkeep (by simp)
  rcases hs : isBoundarySeed (eraseOuterTriangles m).triangles m.fixedEdges t
    with - | -
  · rfl
  · exfalso
    have hs2 : ∃ e ∈ triEdges t,
        countEdge (eraseOuterTriangles m).triangles e = 1 ∧ e ∉ m.fixedEdges :=
      of_decide_eq_true hs
    obtain ⟨e, he, hcount, hf⟩ := hs2
    have hsplit := countP_filter_split m.triangles
      (fun t2 => decide (e ∈ triEdges t2))
      (fun t2 => isOuter m.triangles m.fixedEdges t2)
    have hcount2 : (m.triangles.filter
        fun t2 => !isOuter m.triangles m.fixedEdges t2).countP
          (fun t2 => decide (e ∈ triEdges t2)) = 1 := hcount
    rcases hrem : m.triangles.countP
        (fun t2 => decide (e ∈ triEdges t2) &&
          isOuter m.triangles m.fixedEdges t2) with - | n2
    · have h1 : countEdge m.triangles e = 1 := by
        unfold countEdge
        rw [hsplit, hcount2, hrem]
      have hseed : isBoundarySeed m.triangles m.fixedEdges t = true :=
        decide_eq_true ⟨e, he, h1, hf⟩
      rw [seed_isOuter m.triangles m.fixedEdges t hseed] at hout
      exact absurd hout (by simp)
    · have hpos : 0 < m.triangles.countP
          (fun t2 => decide (e ∈ triEdges t2) &&
            isOuter m.triangles m.fixedEdges t2) := by
        rw [hrem]
        exact Nat.succ_pos n2
      obtain ⟨t2, ht2m, hb⟩ := List.countP_pos.mp hpos
      rw [Bool.and_eq_true] at hb
      have he2 : e ∈ triEdges t2 := of_decide_eq_true hb.1
      have hadj : adjNonFixed m.fixedEdges t2 t = true :=
        decide_eq_true ⟨e, he2, he, hf⟩
      rw [adj_isOuter m.triangles m.fixedEdges t ht2m hb.2 hadj] at hout
      exact absurd hout (by simp)

/-- In a mesh with no boundary seeds the flood fill never reaches any of its
triangles, at any round count. -/
theorem eraseOuter_iter_false (m : Mesh) :
    ∀ k, ∀ t ∈ (eraseOuterTriangles m).triangles,
      outerIter (eraseOuterTriangles m).triangles m.fixedEdges k t = false := by
  intro k
  induction k with
  | zero => intro t ht; rfl
  | succ n ih =>
    intro t ht
    unfold outerIter
    rw [eraseOuter_no_seeds m t ht, Bool.false_or]
    rw [List.any_eq_false]
    intro t2 ht2
    rw [ih t2 ht2]
    simp

/-- C6: `erase_outer_triangles` is idempotent — calling it a second time on
any mesh removes no triangles and leaves the mesh unchanged, because after the
first call every boundary edge of the surviving triangles is a fixed edge, so
the flood fill finds no seed. -/
theorem erase_outer_triangles_idempotent (m : Mesh) :
    eraseOuterTriangles (eraseOuterTriangles m) = eraseOuterTriangles m := by
  have hall : ∀ t ∈ (eraseOuterTriangles m).triangles,
      (!isOuter (eraseOuterTriangles m).triangles
          (eraseOuterTriangles m).fixedEdges t) = true := by
    intro t ht
    have h0 := eraseOuter_iter_false m
      ((eraseOuterTriangles m).triangles.length + 1) t ht
    show (!outerIter (eraseOuterTriangles m).triangles m.fixedEdges
        ((eraseOuterTriangles m).triangles.length + 1) t) = true
    rw [h0]
    rfl
  have htr : (eraseOuterTriangles m).triangles.filter
      (fun t => !isOuter (eraseOuterTriangles m).triangles
        (eraseOuterTriangles m).fixedEdges t) =
      (eraseOuterTriangles m).triangles :=
    List.filter_eq_self.mpr hall
  show { eraseOuterTriangles m with
      triangles := (eraseOuterTriangles m).triangles.filter
        fun t => !isOuter (eraseOuterTriangles m).triangles
          (eraseOuterTriangles m).fixedEdges t } = eraseOuterTriangles m
  rw [htr]

/-- C10: `V2d.__eq__` compares coordinates with IEEE floating-point `==`, so
it is reflexive only for vertices with non-NaN coordinates: for every `V2d`
with both coordinates non-NaN, `v == v` returns true, and for every `V2d`
with a NaN coordinate, `v == v` returns false. -/
theorem v2d_eq_nan_reflexivity :
    (∀ v : V2d, v.x.isNaN = false → v.y.isNaN = false → v2dEq v v = true) ∧
    (∀ v : V2d, (v.x.isNaN = true ∨ v.y.isNaN = true) → v2dEq v v = false) := by
  constructor
  · rintro ⟨x, y⟩ hx hy
    cases x with
    | num a =>
      cases y with
      | num b => simp [v2dEq, ieeeEq]
      | nan => exact absurd hy (by simp [Double.isNaN])
    | nan => exact absurd hx (by simp [Double.isNaN])
  · rintro ⟨x, y⟩ hxy
    cases x with
    | num a =>
      cases y with
      | num b => simp [Double.isNaN] at hxy
      | nan => simp [v2dEq, ieeeEq]
    | nan => simp [v2dEq, ieeeEq]

end PythonCDT
